import Mathlib

/-!
Shallow embedding of `src/tools/fairness/bias_check.py` (the fairness
metrics calculator of Hyraze/collective-ai-tools).

Modelling conventions:
* Python floats that can be NaN are modelled as `Option ℚ`; `none` is NaN.
  Every numerator and denominator occurring in the program is a small
  integer, so exact rationals represent the computed ratios faithfully;
  no claim under consideration depends on rounding of IEEE doubles.
* Label values (`y_true`, `y_pred`, `positive_label`) are modelled by `Lbl`,
  covering the integer and string labels the tool handles; Python `==`
  across those types is `lblEq` (cross-type comparison is `False`).
* The sensitive column is `List (Option β)`; `none` is a missing (NaN)
  group value.  pandas `astype("category")` never makes NaN a category, so
  missing rows match no group mask even when `dropna_groups` is false.
* pandas sorts the categories produced by `astype("category")`, hence the
  `[LinearOrder β]` instance and the `insertionSort` in `catsOf`.
* `Categorical.set_categories` (used for `group_order`) rejects duplicate
  categories with `ValueError("Categorical categories must be unique")`;
  `catsOf` models that error path.
* `Except String` models the `ValueError`s raised by `from_arrays`;
  `Except.error` is a raise, `Except.ok` a returned report.
-/

/-- A label value as the tool sees it: an integer or a string.  Python
equality across these types is `lblEq` below. -/
inductive Lbl where
  | int : ℤ → Lbl
  | str : String → Lbl
deriving DecidableEq

/-- Python `==` between label values: numeric equality between numbers,
string equality between strings, `False` across types. -/
def lblEq : Lbl → Lbl → Bool
  | Lbl.int m, Lbl.int n => m == n
  | Lbl.str a, Lbl.str b => a == b
  | _, _ => false

/-- `_safe_div` from bias_check.py: `n / d` unless `d` is zero, in which
case NaN (`none`). -/
def safe_div (n d : ℚ) : Option ℚ :=
  if d = 0 then none else some (n / d)

/-- Per-group metric record (`GroupMetrics` dataclass).  Each rate is
`Option ℚ`, `none` standing for NaN. -/
structure GroupMetrics (β : Type) where
  group : β
  count : ℕ
  positive_rate : Option ℚ
  tpr : Option ℚ
  fpr : Option ℚ
  ppv : Option ℚ
  tnr : Option ℚ
  fnr : Option ℚ
deriving DecidableEq

/-- Across-group summary record (`SummaryMetrics` dataclass).  The source
field `disparate_impact_ratio` is rendered `disparate_impact` here. -/
structure SummaryMetrics where
  demographic_parity_difference : Option ℚ
  disparate_impact : Option ℚ
  equal_opportunity_difference : Option ℚ
  equalized_odds_difference : Option ℚ
  predictive_parity_difference : Option ℚ
deriving DecidableEq

/-- The `metadata` dict attached to a report. -/
structure ReportMeta where
  n_samples : ℕ
  n_groups : ℕ
  positive_label : Lbl
deriving DecidableEq

/-- The `BiasReport` dataclass. -/
structure BiasReport (β : Type) where
  by_group : List (GroupMetrics β)
  summary : SummaryMetrics
  metadata : ReportMeta
deriving DecidableEq

/-- `(pd.Series(y_score) >= float(threshold)).astype(int)`: score-derived
hard predictions, as integer labels 0/1. -/
def scoreToPred (t : ℚ) (scores : List ℚ) : List Lbl :=
  scores.map (fun s => if t ≤ s then Lbl.int 1 else Lbl.int 0)

/-- Lines 132-137: resolve the prediction column.  `y_pred` wins when
present; otherwise `y_score` and `threshold` must both be supplied. -/
def resolvePred (y_pred : Option (List Lbl)) (y_score : Option (List ℚ))
    (threshold : Option ℚ) : Except String (List Lbl) :=
  match y_pred with
  | some p => Except.ok p
  | none =>
    match y_score, threshold with
    | some s, some t => Except.ok (scoreToPred t s)
    | _, _ => Except.error "Provide either y_pred, or y_score+threshold."

/-- One row of the concatenated frame: `(y_true, y_pred, sensitive)`.
`zip3` models `pd.concat(..., axis=1)` on equal-length columns. -/
def zip3 {β : Type} (yt yp : List Lbl) (s : List (Option β)) :
    List (Lbl × Lbl × Option β) :=
  yt.zip (yp.zip s)

/-- Lines 144-145: when `dropna_groups` is set, drop rows whose sensitive
value is missing. -/
def filteredRows {β : Type} (dropna : Bool) (rows : List (Lbl × Lbl × Option β)) :
    List (Lbl × Lbl × Option β) :=
  if dropna then rows.filter (fun r => r.2.2.isSome) else rows

/-- First-occurrence deduplication of a list (the distinct values). -/
def uniques {β : Type} [DecidableEq β] : List β → List β
  | [] => []
  | x :: xs => x :: (uniques xs).filter (fun y => decide (y ≠ x))

/-- Lines 150-155: the category list the group loop iterates over.
Without `group_order`, pandas builds the sorted distinct non-missing
values; with `group_order`, `set_categories` installs exactly that list
(pandas raises `ValueError` when it contains duplicates — rows whose
group is absent from it become NaN and so match no category mask). -/
def catsOf {β : Type} [LinearOrder β] (group_order : Option (List β))
    (rows : List (Lbl × Lbl × Option β)) : Except String (List β) :=
  match group_order with
  | some go =>
      if go.Nodup then Except.ok go
      else Except.error "Categorical categories must be unique"
  | none => Except.ok (List.insertionSort (fun a b => a ≤ b)
      (uniques (rows.filterMap (fun r => r.2.2))))

/-- The rows of one group, normalized to booleans (line 148-149 applied to
the masked column, line 159): pairs `(y, ŷ)` for rows whose sensitive
value equals the group. -/
def groupRows {β : Type} [DecidableEq β] (rows : List (Lbl × Lbl × Option β))
    (positive_label : Lbl) (c : β) : List (Bool × Bool) :=
  (rows.filter (fun r => decide (r.2.2 = some c))).map
    (fun r => (lblEq r.1 positive_label, lblEq r.2.1 positive_label))

/-- Predicted-positive count (`yp.sum()`). -/
def selOf (rs : List (Bool × Bool)) : ℕ := (rs.filter (fun r => r.2)).length

/-- True positives: predicted positive and truly positive. -/
def tpOf (rs : List (Bool × Bool)) : ℕ :=
  (rs.filter (fun r => r.2 && r.1)).length

/-- False positives: predicted positive and truly negative. -/
def fpOf (rs : List (Bool × Bool)) : ℕ :=
  (rs.filter (fun r => r.2 && !r.1)).length

/-- True negatives: predicted negative and truly negative. -/
def tnOf (rs : List (Bool × Bool)) : ℕ :=
  (rs.filter (fun r => !r.2 && !r.1)).length

/-- False negatives: predicted negative and truly positive. -/
def fnOf (rs : List (Bool × Bool)) : ℕ :=
  (rs.filter (fun r => !r.2 && r.1)).length

/-- Lines 166-188: the `GroupMetrics` record built for one group from its
normalized rows. -/
def metricsFor {β : Type} (c : β) (rs : List (Bool × Bool)) : GroupMetrics β :=
  { group := c
    count := rs.length
    positive_rate := safe_div (selOf rs) rs.length
    tpr := safe_div (tpOf rs) (tpOf rs + fnOf rs)
    fpr := safe_div (fpOf rs) (fpOf rs + tnOf rs)
    ppv := safe_div (tpOf rs) (tpOf rs + fpOf rs)
    tnr := safe_div (tnOf rs) (tnOf rs + fpOf rs)
    fnr := safe_div (fnOf rs) (fnOf rs + tpOf rs) }

/-- Lines 158-188: the `by_group` list — one entry per category with at
least one row, empty categories silently skipped (`if n == 0: continue`). -/
def byGroupOf {β : Type} [DecidableEq β] (rows : List (Lbl × Lbl × Option β))
    (positive_label : Lbl) (cats : List β) : List (GroupMetrics β) :=
  cats.filterMap (fun c =>
    let rs := groupRows rows positive_label c
    if rs.length = 0 then none else some (metricsFor c rs))

/-- Maximum of a rational list, `none` on the empty list. -/
def listMax : List ℚ → Option ℚ
  | [] => none
  | x :: xs => match listMax xs with
    | none => some x
    | some m => some (max x m)

/-- Minimum of a rational list, `none` on the empty list. -/
def listMin : List ℚ → Option ℚ
  | [] => none
  | x :: xs => match listMin xs with
    | none => some x
    | some m => some (min x m)

/-- `np.nanmax`: maximum ignoring NaN entries; NaN when no finite entry. -/
def nanmax (l : List (Option ℚ)) : Option ℚ := listMax (l.filterMap id)

/-- `np.nanmin`: minimum ignoring NaN entries; NaN when no finite entry. -/
def nanmin (l : List (Option ℚ)) : Option ℚ := listMin (l.filterMap id)

/-- Lines 191-195, the `span` helper: NaN on an empty metric list, else
`nanmax - nanmin` (which is NaN when every entry is NaN). -/
def spanOf (l : List (Option ℚ)) : Option ℚ :=
  if l = [] then none
  else
    match nanmax l, nanmin l with
    | some a, some b => some (a - b)
    | _, _ => none

/-- Lines 197-203, the `di_ratio` helper: NaN on an empty list, else
`_safe_div(nanmin, nanmax)`.  A NaN `nanmax` passes Python's `d != 0`
test and the division then yields NaN, matching the `none` branches. -/
def diOf (l : List (Option ℚ)) : Option ℚ :=
  if l = [] then none
  else
    match nanmax l, nanmin l with
    | some mx, some mn => if mx = 0 then none else some (mn / mx)
    | _, _ => none

/-- Python's binary `max` on possibly-NaN floats: returns the second
argument only when `second > first` holds, so a NaN first argument wins
and a NaN second argument loses. -/
def pymax : Option ℚ → Option ℚ → Option ℚ
  | some a, some b => some (if a < b then b else a)
  | some a, none => some a
  | none, _ => none

/-- Lines 206-214: the summary metrics computed from the by-group list. -/
def summaryOf {β : Type} (gms : List (GroupMetrics β)) : SummaryMetrics :=
  { demographic_parity_difference := spanOf (gms.map (fun m => m.positive_rate))
    disparate_impact := diOf (gms.map (fun m => m.positive_rate))
    equal_opportunity_difference := spanOf (gms.map (fun m => m.tpr))
    equalized_odds_difference :=
      pymax (spanOf (gms.map (fun m => m.tpr))) (spanOf (gms.map (fun m => m.fpr)))
    predictive_parity_difference := spanOf (gms.map (fun m => m.ppv)) }

/-- `BiasReport.from_arrays` (lines 106-222): resolve predictions,
validate lengths, build the frame, optionally drop missing-group rows,
compute per-group metrics over the categories, then summary and metadata. -/
def from_arrays {β : Type} [LinearOrder β] (y_true : List Lbl)
    (y_pred : Option (List Lbl)) (sensitive : List (Option β))
    (y_score : Option (List ℚ)) (threshold : Option ℚ)
    (positive_label : Lbl) (group_order : Option (List β))
    (dropna_groups : Bool) : Except String (BiasReport β) :=
  match resolvePred y_pred y_score threshold with
  | Except.error e => Except.error e
  | Except.ok pred =>
    if y_true.length = pred.length ∧ y_true.length = sensitive.length then
      let rows := filteredRows dropna_groups (zip3 y_true pred sensitive)
      match catsOf group_order rows with
      | Except.error e => Except.error e
      | Except.ok cats =>
        let bg := byGroupOf rows positive_label cats
        Except.ok
          { by_group := bg
            summary := summaryOf bg
            metadata :=
              { n_samples := rows.length
                n_groups := bg.length
                positive_label := positive_label } }
    else
      Except.error "y_true, y_pred/y_score, and sensitive must have the same length"

/-- The row list `from_arrays` works on after validation: the concatenated
frame, minus missing-group rows when `dropna_groups` is set. -/
def rowsOf {β : Type} (y_true pred : List Lbl) (sensitive : List (Option β))
    (dropna : Bool) : List (Lbl × Lbl × Option β) :=
  filteredRows dropna (zip3 y_true pred sensitive)

/-- A rate value that is either NaN or a rational in the unit interval. -/
def inUnitOrNaN (o : Option ℚ) : Prop :=
  o = none ∨ ∃ q, o = some q ∧ 0 ≤ q ∧ q ≤ 1

theorem listMax_eq_none_iff {l : List ℚ} : listMax l = none ↔ l = [] := by
  cases l with
  | nil => simp [listMax]
  | cons x xs =>
    simp only [listMax]
    cases listMax xs <;> simp

theorem listMax_spec {l : List ℚ} {a : ℚ} (h : listMax l = some a) :
    a ∈ l ∧ ∀ x ∈ l, x ≤ a := by
  induction l generalizing a with
  | nil => simp [listMax] at h
  | cons x xs ih =>
    simp only [listMax] at h
    cases hxs : listMax xs with
    | none =>
      rw [hxs] at h
      have hnil : xs = [] := listMax_eq_none_iff.mp hxs
      subst hnil
      simp at h
      subst h
      simp
    | some m =>
      rw [hxs] at h
      simp at h
      obtain ⟨hm, hle⟩ := ih hxs
      subst h
      refine ⟨?_, ?_⟩
      · rcases max_choice x m with hc | hc <;> rw [hc]
        · simp
        · simp [hm]
      · intro z hz
        rcases List.mem_cons.mp hz with hz | hz
        · subst hz; exact le_max_left _ _
        · exact le_trans (hle z hz) (le_max_right _ _)

theorem listMin_eq_none_iff {l : List ℚ} : listMin l = none ↔ l = [] := by
  cases l with
  | nil => simp [listMin]
  | cons x xs =>
    simp only [listMin]
    cases listMin xs <;> simp

theorem listMin_spec {l : List ℚ} {a : ℚ} (h : listMin l = some a) :
    a ∈ l ∧ ∀ x ∈ l, a ≤ x := by
  induction l generalizing a with
  | nil => simp [listMin] at h
  | cons x xs ih =>
    simp only [listMin] at h
    cases hxs : listMin xs with
    | none =>
      rw [hxs] at h
      have hnil : xs = [] := listMin_eq_none_iff.mp hxs
      subst hnil
      simp at h
      subst h
      simp
    | some m =>
      rw [hxs] at h
      simp at h
      obtain ⟨hm, hle⟩ := ih hxs
      subst h
      refine ⟨?_, ?_⟩
      · rcases min_choice x m with hc | hc <;> rw [hc]
        · simp
        · simp [hm]
      · intro z hz
        rcases List.mem_cons.mp hz with hz | hz
        · subst hz; exact min_le_left _ _
        · exact le_trans (min_le_right _ _) (hle z hz)

theorem mem_uniques {β : Type} [DecidableEq β] {l : List β} {b : β} :
    b ∈ uniques l ↔ b ∈ l := by
  induction l with
  | nil => simp [uniques]
  | cons x xs ih =>
    simp only [uniques, List.mem_cons, List.mem_filter]
    constructor
    · rintro (h | ⟨h, _⟩)
      · exact Or.inl h
      · exact Or.inr (ih.mp h)
    · rintro (h | h)
      · exact Or.inl h
      · by_cases hbx : b = x
        · exact Or.inl hbx
        · exact Or.inr ⟨ih.mpr h, by simp [hbx]⟩

theorem nodup_uniques {β : Type} [DecidableEq β] (l : List β) :
    (uniques l).Nodup := by
  induction l with
  | nil => simp [uniques]
  | cons x xs ih =>
    simp only [uniques]
    refine List.Nodup.cons ?_ (List.Nodup.filter _ ih)
    intro hx
    have := (List.mem_filter.mp hx).2
    simp at this

theorem length_filterMap_eq_countP {α γ : Type} (f : α → Option γ) (l : List α) :
    (l.filterMap f).length = l.countP (fun a => (f a).isSome) := by
  induction l with
  | nil => simp
  | cons x xs ih =>
    cases hx : f x <;>
      simp [List.filterMap_cons, List.countP_cons, hx, ih]

theorem from_arrays_ok {β : Type} [LinearOrder β] {y_true : List Lbl}
    {y_pred : Option (List Lbl)} {sensitive : List (Option β)}
    {y_score : Option (List ℚ)} {threshold : Option ℚ} {positive_label : Lbl}
    {group_order : Option (List β)} {dropna_groups : Bool} {r : BiasReport β}
    (h : from_arrays y_true y_pred sensitive y_score threshold positive_label
      group_order dropna_groups = Except.ok r) :
    ∃ pred cats,
      resolvePred y_pred y_score threshold = Except.ok pred ∧
      y_true.length = pred.length ∧ y_true.length = sensitive.length ∧
      catsOf group_order (rowsOf y_true pred sensitive dropna_groups) =
        Except.ok cats ∧
      r.by_group =
        byGroupOf (rowsOf y_true pred sensitive dropna_groups) positive_label cats ∧
      r.summary = summaryOf
        (byGroupOf (rowsOf y_true pred sensitive dropna_groups) positive_label cats) ∧
      r.metadata =
        { n_samples := (rowsOf y_true pred sensitive dropna_groups).length
          n_groups := (byGroupOf (rowsOf y_true pred sensitive dropna_groups)
            positive_label cats).length
          positive_label := positive_label } := by
  unfold from_arrays at h
  split at h
  · exact absurd h (by simp)
  · rename_i pred hp
    split at h
    · rename_i hlen
      simp only [] at h
      split at h
      · exact absurd h (by simp)
      · rename_i cats hc
        simp only [Except.ok.injEq] at h
        refine ⟨pred, cats, hp, hlen.1, hlen.2, ?_, ?_, ?_, ?_⟩ <;>
          simp [rowsOf, ← h, hc]
    · exact absurd h (by simp)

theorem catsOf_nodup {β : Type} [LinearOrder β] {group_order : Option (List β)}
    {rows : List (Lbl × Lbl × Option β)} {cats : List β}
    (h : catsOf group_order rows = Except.ok cats) : cats.Nodup := by
  cases group_order with
  | some go =>
    simp only [catsOf] at h
    by_cases hn : go.Nodup
    · rw [if_pos hn] at h
      simp at h
      exact h ▸ hn
    · rw [if_neg hn] at h
      exact absurd h (by simp)
  | none =>
    simp only [catsOf, Except.ok.injEq] at h
    rw [← h]
    exact (List.perm_insertionSort _ _).nodup_iff.mpr (nodup_uniques _)

theorem mem_byGroupOf {β : Type} [DecidableEq β]
    {rows : List (Lbl × Lbl × Option β)} {pl : Lbl} {cats : List β}
    {gm : GroupMetrics β} :
    gm ∈ byGroupOf rows pl cats ↔
      ∃ c ∈ cats, groupRows rows pl c ≠ [] ∧
        gm = metricsFor c (groupRows rows pl c) := by
  simp only [byGroupOf, List.mem_filterMap]
  constructor
  · rintro ⟨c, hc, hf⟩
    by_cases hn : (groupRows rows pl c).length = 0
    · rw [if_pos hn] at hf; exact absurd hf (by simp)
    · rw [if_neg hn] at hf
      simp at hf
      exact ⟨c, hc, fun he => hn (by simp [he]), hf.symm⟩
  · rintro ⟨c, hc, hne, hgm⟩
    refine ⟨c, hc, ?_⟩
    rw [if_neg (by simpa using hne)]
    simp [hgm]

theorem safe_div_unit {a b : ℕ} (hab : a ≤ b) : inUnitOrNaN (safe_div a b) := by
  unfold safe_div inUnitOrNaN
  by_cases hb : (b : ℚ) = 0
  · simp [hb]
  · right
    have hb0 : (0 : ℚ) < b := lt_of_le_of_ne (Nat.cast_nonneg b) (Ne.symm hb)
    refine ⟨(a : ℚ) / b, by simp [hb], ?_, ?_⟩
    · exact div_nonneg (Nat.cast_nonneg a) (Nat.cast_nonneg b)
    · rw [div_le_one hb0]
      exact_mod_cast hab

theorem selOf_le_length (rs : List (Bool × Bool)) : selOf rs ≤ rs.length :=
  List.length_filter_le _ _

theorem tpOf_add_fnOf (rs : List (Bool × Bool)) :
    tpOf rs + fnOf rs = (rs.filter (fun x => x.1)).length := by
  induction rs with
  | nil => simp [tpOf, fnOf]
  | cons x xs ih =>
    obtain ⟨y, yp⟩ := x
    cases y <;> cases yp <;>
      simp [tpOf, fnOf, List.filter_cons] at ih ⊢ <;> omega

theorem fpOf_add_tnOf (rs : List (Bool × Bool)) :
    fpOf rs + tnOf rs = (rs.filter (fun x => !x.1)).length := by
  induction rs with
  | nil => simp [fpOf, tnOf]
  | cons x xs ih =>
    obtain ⟨y, yp⟩ := x
    cases y <;> cases yp <;>
      simp [fpOf, tnOf, List.filter_cons] at ih ⊢ <;> omega

theorem map_third_zip3 {β : Type} (yt yp : List Lbl) (s : List (Option β))
    (h1 : yt.length = yp.length) (h2 : yt.length = s.length) :
    (zip3 yt yp s).map (fun r => r.2.2) = s := by
  induction yt generalizing yp s with
  | nil =>
    cases s with
    | nil => simp [zip3]
    | cons a t => simp at h2
  | cons a t ih =>
    cases yp with
    | nil => simp at h1
    | cons b u =>
      cases s with
      | nil => simp at h2
      | cons c v =>
        simp only [zip3, List.zip_cons_cons, List.map_cons] at ih ⊢
        simp at h1 h2
        rw [ih u v h1 h2]

theorem countP_isSome_add_isNone {β : Type} (s : List (Option β)) :
    s.countP (fun o => o.isSome) + s.countP (fun o => o.isNone) = s.length := by
  induction s with
  | nil => simp
  | cons o t ih => cases o <;> simp [List.countP_cons, ih] <;> omega

theorem groupRows_ne_nil_iff {β : Type} [DecidableEq β]
    (rows : List (Lbl × Lbl × Option β)) (pl : Lbl) (c : β) :
    groupRows rows pl c ≠ [] ↔ c ∈ rows.filterMap (fun r => r.2.2) := by
  simp only [groupRows, ne_eq, List.map_eq_nil_iff, List.filter_eq_nil_iff,
    List.mem_filterMap]
  push_neg
  constructor
  · rintro ⟨r, hr, hc⟩
    exact ⟨r, hr, by simpa using hc⟩
  · rintro ⟨r, hr, hc⟩
    exact ⟨r, hr, by simpa using hc⟩


/- ### Concrete evaluations used by counterexamples and witnesses -/

/-- Metrics of the single group of the one-row input
`y_true=[1]`, `y_pred=[1]`, `sensitive=[0]`. -/
def ex1Gm : GroupMetrics ℕ :=
  { group := 0, count := 1, positive_rate := some 1, tpr := some 1,
    fpr := none, ppv := some 1, tnr := none, fnr := some 0 }

/-- Summary of a report whose only group is `ex1Gm`. -/
def ex1Sum : SummaryMetrics :=
  { demographic_parity_difference := some 0, disparate_impact := some 1,
    equal_opportunity_difference := some 0, equalized_odds_difference := some 0,
    predictive_parity_difference := some 0 }

/-- The report of the one-row input. -/
def ex1Report : BiasReport ℕ :=
  { by_group := [ex1Gm], summary := ex1Sum,
    metadata := { n_samples := 1, n_groups := 1, positive_label := Lbl.int 1 } }

/-- The report of the empty input. -/
def ex0Report : BiasReport ℕ :=
  { by_group := [],
    summary :=
      { demographic_parity_difference := none, disparate_impact := none,
        equal_opportunity_difference := none, equalized_odds_difference := none,
        predictive_parity_difference := none },
    metadata := { n_samples := 0, n_groups := 0, positive_label := Lbl.int 1 } }

theorem ex0_ok :
    from_arrays (β := ℕ) [] (some []) [] none none (Lbl.int 1) none false =
      Except.ok ex0Report := rfl

theorem mf1 : metricsFor (β := ℕ) 0 [(true, true)] = ex1Gm := by
  norm_num [metricsFor, safe_div, selOf, tpOf, fpOf, tnOf, fnOf, ex1Gm]

theorem bg1 :
    byGroupOf (β := ℕ) [(Lbl.int 1, Lbl.int 1, some 0)] (Lbl.int 1) [0] =
      [ex1Gm] := by
  have hb : byGroupOf (β := ℕ) [(Lbl.int 1, Lbl.int 1, some 0)] (Lbl.int 1) [0] =
      [metricsFor (β := ℕ) 0 [(true, true)]] := by
    simp [byGroupOf, List.filterMap_cons]
    rfl
  rw [hb, mf1]

theorem sum1 : summaryOf [ex1Gm] = ex1Sum := by
  norm_num [summaryOf, spanOf, diOf, nanmax, nanmin, listMax, listMin, pymax,
    ex1Gm, ex1Sum]

theorem ex1_ok :
    from_arrays (β := ℕ) [Lbl.int 1] (some [Lbl.int 1]) [some 0] none none
      (Lbl.int 1) none false = Except.ok ex1Report := by
  have hstep :
      from_arrays (β := ℕ) [Lbl.int 1] (some [Lbl.int 1]) [some 0] none none
        (Lbl.int 1) none false =
      Except.ok
        { by_group := byGroupOf (β := ℕ) [(Lbl.int 1, Lbl.int 1, some 0)]
            (Lbl.int 1) [0],
          summary := summaryOf (byGroupOf (β := ℕ)
            [(Lbl.int 1, Lbl.int 1, some 0)] (Lbl.int 1) [0]),
          metadata := { n_samples := 1,
                        n_groups := (byGroupOf (β := ℕ)
                          [(Lbl.int 1, Lbl.int 1, some 0)] (Lbl.int 1) [0]).length,
                        positive_label := Lbl.int 1 } } := rfl
  rw [hstep, bg1, sum1]
  simp [ex1Report]

/-- The report of the dropna input `y_true=[1,0]`, `y_pred=[1,1]`,
`sensitive=[0, missing]`, `dropna_groups=true`. -/
def ex3Report : BiasReport ℕ :=
  { by_group := [ex1Gm], summary := ex1Sum,
    metadata := { n_samples := 1, n_groups := 1, positive_label := Lbl.int 1 } }

theorem ex3_ok :
    from_arrays (β := ℕ) [Lbl.int 1, Lbl.int 0] (some [Lbl.int 1, Lbl.int 1])
      [some 0, none] none none (Lbl.int 1) none true = Except.ok ex3Report := by
  have hstep :
      from_arrays (β := ℕ) [Lbl.int 1, Lbl.int 0] (some [Lbl.int 1, Lbl.int 1])
        [some 0, none] none none (Lbl.int 1) none true =
      Except.ok
        { by_group := byGroupOf (β := ℕ) [(Lbl.int 1, Lbl.int 1, some 0)]
            (Lbl.int 1) [0],
          summary := summaryOf (byGroupOf (β := ℕ)
            [(Lbl.int 1, Lbl.int 1, some 0)] (Lbl.int 1) [0]),
          metadata := { n_samples := 1,
                        n_groups := (byGroupOf (β := ℕ)
                          [(Lbl.int 1, Lbl.int 1, some 0)] (Lbl.int 1) [0]).length,
                        positive_label := Lbl.int 1 } } := rfl
  rw [hstep, bg1, sum1]
  simp [ex3Report]

/-- The report of the `group_order=[0]` input `y_true=[1,0]`, `y_pred=[1,1]`,
`sensitive=[0,1]`: the second row's group is not in `group_order`, so it
lands in no group, yet counts in `n_samples`. -/
def ex4Report : BiasReport ℕ :=
  { by_group := [ex1Gm], summary := ex1Sum,
    metadata := { n_samples := 2, n_groups := 1, positive_label := Lbl.int 1 } }

theorem ex4_ok :
    from_arrays (β := ℕ) [Lbl.int 1, Lbl.int 0] (some [Lbl.int 1, Lbl.int 1])
      [some 0, some 1] none none (Lbl.int 1) (some [0]) false =
      Except.ok ex4Report := by
  have hstep :
      from_arrays (β := ℕ) [Lbl.int 1, Lbl.int 0] (some [Lbl.int 1, Lbl.int 1])
        [some 0, some 1] none none (Lbl.int 1) (some [0]) false =
      Except.ok
        { by_group :=
            byGroupOf (β := ℕ)
              [(Lbl.int 1, Lbl.int 1, some 0), (Lbl.int 0, Lbl.int 1, some 1)]
              (Lbl.int 1) [0],
          summary := summaryOf (byGroupOf (β := ℕ)
            [(Lbl.int 1, Lbl.int 1, some 0), (Lbl.int 0, Lbl.int 1, some 1)]
            (Lbl.int 1) [0]),
          metadata := { n_samples := 2,
                        n_groups := (byGroupOf (β := ℕ)
                          [(Lbl.int 1, Lbl.int 1, some 0),
                            (Lbl.int 0, Lbl.int 1, some 1)]
                          (Lbl.int 1) [0]).length,
                        positive_label := Lbl.int 1 } } := rfl
  have hbg : byGroupOf (β := ℕ)
      [(Lbl.int 1, Lbl.int 1, some 0), (Lbl.int 0, Lbl.int 1, some 1)]
      (Lbl.int 1) [0] = [ex1Gm] := by
    have hb : byGroupOf (β := ℕ)
        [(Lbl.int 1, Lbl.int 1, some 0), (Lbl.int 0, Lbl.int 1, some 1)]
        (Lbl.int 1) [0] = [metricsFor (β := ℕ) 0 [(true, true)]] := by
      simp [byGroupOf, List.filterMap_cons]
      rfl
    rw [hb, mf1]
  rw [hstep, hbg, sum1]
  simp [ex4Report]

/- ### Claims -/

/-- Claim C1, counterexample.  The claim states every one of the five
summary values is NaN already when only ONE non-empty group exists.  On
the one-group input `y_true=[1]`, `y_pred=[1]`, `sensitive=[0]` the code
returns one group and the summary values `0`, `1`, `0`, `0`, `0` — none of
them NaN — because on this input `span` of the singleton is `1 - 1 = 0`
and `di_ratio` is `1 / 1 = 1`. -/
theorem c1_counterexample :
    (from_arrays (β := ℕ) [Lbl.int 1] (some [Lbl.int 1]) [some 0] none none
      (Lbl.int 1) none false).map
      (fun r => (r.by_group.length, r.summary.demographic_parity_difference,
        r.summary.disparate_impact, r.summary.equal_opportunity_difference,
        r.summary.equalized_odds_difference,
        r.summary.predictive_parity_difference)) =
    Except.ok (1, some 0, some 1, some 0, some 0, some 0) := by
  rw [ex1_ok]
  rfl

/-- Claim C1, amended: when the input yields ZERO non-empty groups, each
of the five summary values returned by `from_arrays` is NaN.  (This is
the original claim with "or one" dropped: the counterexample shows a
one-group input whose five summary values are all finite.) -/
theorem c1_zero_groups_nan {β : Type} [LinearOrder β] (y_true : List Lbl)
    (y_pred : Option (List Lbl)) (sensitive : List (Option β))
    (y_score : Option (List ℚ)) (threshold : Option ℚ) (positive_label : Lbl)
    (group_order : Option (List β)) (dropna_groups : Bool) (r : BiasReport β)
    (h : from_arrays y_true y_pred sensitive y_score threshold positive_label
      group_order dropna_groups = Except.ok r)
    (hbg : r.by_group = []) :
    r.summary =
      { demographic_parity_difference := none, disparate_impact := none,
        equal_opportunity_difference := none, equalized_odds_difference := none,
        predictive_parity_difference := none } := by
  obtain ⟨pred, cats, _, _, _, _, hbg', hsum, _⟩ := from_arrays_ok h
  rw [hsum, ← hbg', hbg]
  rfl

/-- Witness for the amended C1, at the empty input (zero groups). -/
theorem c1_zero_groups_nan_witness :
    ex0Report.summary =
      { demographic_parity_difference := none, disparate_impact := none,
        equal_opportunity_difference := none, equalized_odds_difference := none,
        predictive_parity_difference := none } :=
  c1_zero_groups_nan [] (some []) [] none none (Lbl.int 1) none false
    ex0Report ex0_ok rfl

/-- Claim C4: the ratios are computed by `_safe_div`, which never raises:
it returns NaN when the denominator is zero and the exact quotient
otherwise.  (In the embedding totality is by construction; the theorem
records the two-way value contract.) -/
theorem c4_safe_div_contract (n d : ℚ) :
    (d = 0 → safe_div n d = none) ∧ (d ≠ 0 → safe_div n d = some (n / d)) := by
  constructor <;> intro h <;> simp [safe_div, h]

/-- Witness for C4 at `3/0` (NaN) and `3/2` (quotient). -/
theorem c4_safe_div_contract_witness :
    safe_div 3 0 = none ∧ safe_div 3 2 = some (3 / 2) :=
  ⟨(c4_safe_div_contract 3 0).1 rfl, (c4_safe_div_contract 3 2).2 (by norm_num)⟩

theorem safe_div_unit_le {x y : ℚ} (hx : 0 ≤ x) (hxy : x ≤ y) :
    inUnitOrNaN (safe_div x y) := by
  unfold safe_div inUnitOrNaN
  by_cases hy : y = 0
  · simp [hy]
  · have hy0 : 0 < y := lt_of_le_of_ne (le_trans hx hxy) (Ne.symm hy)
    exact Or.inr ⟨x / y, by simp [hy], div_nonneg hx hy0.le,
      (div_le_one hy0).mpr hxy⟩

theorem metricsFor_rates {β : Type} (c : β) (rs : List (Bool × Bool)) :
    inUnitOrNaN (metricsFor c rs).positive_rate ∧
    inUnitOrNaN (metricsFor c rs).tpr ∧ inUnitOrNaN (metricsFor c rs).fpr ∧
    inUnitOrNaN (metricsFor c rs).ppv ∧ inUnitOrNaN (metricsFor c rs).tnr ∧
    inUnitOrNaN (metricsFor c rs).fnr := by
  unfold metricsFor
  refine ⟨?_, ?_, ?_, ?_, ?_, ?_⟩ <;>
    apply safe_div_unit_le (Nat.cast_nonneg _)
  · exact_mod_cast selOf_le_length rs
  · linarith [Nat.cast_nonneg (α := ℚ) (fnOf rs)]
  · linarith [Nat.cast_nonneg (α := ℚ) (tnOf rs)]
  · linarith [Nat.cast_nonneg (α := ℚ) (fpOf rs)]
  · linarith [Nat.cast_nonneg (α := ℚ) (fpOf rs)]
  · linarith [Nat.cast_nonneg (α := ℚ) (tpOf rs)]

/-- Claim C5: in every report `from_arrays` returns, each of the six rates
of each `GroupMetrics` entry is NaN or lies in the closed unit interval. -/
theorem c5_rates_in_unit {β : Type} [LinearOrder β] (y_true : List Lbl)
    (y_pred : Option (List Lbl)) (sensitive : List (Option β))
    (y_score : Option (List ℚ)) (threshold : Option ℚ) (positive_label : Lbl)
    (group_order : Option (List β)) (dropna_groups : Bool) (r : BiasReport β)
    (h : from_arrays y_true y_pred sensitive y_score threshold positive_label
      group_order dropna_groups = Except.ok r)
    (gm : GroupMetrics β) (hgm : gm ∈ r.by_group) :
    inUnitOrNaN gm.positive_rate ∧ inUnitOrNaN gm.tpr ∧ inUnitOrNaN gm.fpr ∧
    inUnitOrNaN gm.ppv ∧ inUnitOrNaN gm.tnr ∧ inUnitOrNaN gm.fnr := by
  obtain ⟨pred, cats, _, _, _, _, hbg, _, _⟩ := from_arrays_ok h
  rw [hbg] at hgm
  obtain ⟨c, _, _, hgm⟩ := mem_byGroupOf.mp hgm
  rw [hgm]
  exact metricsFor_rates c _

/-- Witness for C5 at the one-row input. -/
theorem c5_rates_in_unit_witness :
    inUnitOrNaN ex1Gm.positive_rate ∧ inUnitOrNaN ex1Gm.tpr ∧
    inUnitOrNaN ex1Gm.fpr ∧ inUnitOrNaN ex1Gm.ppv ∧ inUnitOrNaN ex1Gm.tnr ∧
    inUnitOrNaN ex1Gm.fnr :=
  c5_rates_in_unit [Lbl.int 1] (some [Lbl.int 1]) [some 0] none none
    (Lbl.int 1) none false ex1Report ex1_ok ex1Gm (by simp [ex1Report])

/-- Claim C6: whenever the returned `demographic_parity_difference` is a
finite value `q`, it equals `a - b` where `a` is the greatest and `b` the
least of the finite selection rates of the output groups, and hence
`0 ≤ q`. -/
theorem c6_dp_max_sub_min {β : Type} [LinearOrder β] (y_true : List Lbl)
    (y_pred : Option (List Lbl)) (sensitive : List (Option β))
    (y_score : Option (List ℚ)) (threshold : Option ℚ) (positive_label : Lbl)
    (group_order : Option (List β)) (dropna_groups : Bool) (r : BiasReport β)
    (h : from_arrays y_true y_pred sensitive y_score threshold positive_label
      group_order dropna_groups = Except.ok r)
    (q : ℚ) (hq : r.summary.demographic_parity_difference = some q) :
    (∃ a b, a ∈ (r.by_group.map (fun m => m.positive_rate)).filterMap id ∧
      b ∈ (r.by_group.map (fun m => m.positive_rate)).filterMap id ∧
      (∀ x ∈ (r.by_group.map (fun m => m.positive_rate)).filterMap id, x ≤ a) ∧
      (∀ x ∈ (r.by_group.map (fun m => m.positive_rate)).filterMap id, b ≤ x) ∧
      q = a - b) ∧ 0 ≤ q := by
  obtain ⟨pred, cats, _, _, _, _, hbg, hsum, _⟩ := from_arrays_ok h
  rw [hsum] at hq
  simp only [summaryOf] at hq
  rw [hbg]
  unfold spanOf at hq
  split at hq
  · exact absurd hq (by simp)
  · split at hq
    · rename_i a b hmax hmin
      simp only [Option.some.injEq] at hq
      unfold nanmax at hmax
      unfold nanmin at hmin
      obtain ⟨hamem, hale⟩ := listMax_spec hmax
      obtain ⟨hbmem, hble⟩ := listMin_spec hmin
      refine ⟨⟨a, b, hamem, hbmem, hale, hble, hq.symm⟩, ?_⟩
      rw [← hq]
      exact sub_nonneg.mpr (hble a hamem)
    · exact absurd hq (by simp)

/-- Witness for C6 at the one-row input, where the difference is `0`. -/
theorem c6_dp_max_sub_min_witness :
    (∃ a b, a ∈ (ex1Report.by_group.map (fun m => m.positive_rate)).filterMap id ∧
      b ∈ (ex1Report.by_group.map (fun m => m.positive_rate)).filterMap id ∧
      (∀ x ∈ (ex1Report.by_group.map (fun m => m.positive_rate)).filterMap id,
        x ≤ a) ∧
      (∀ x ∈ (ex1Report.by_group.map (fun m => m.positive_rate)).filterMap id,
        b ≤ x) ∧
      (0 : ℚ) = a - b) ∧ (0 : ℚ) ≤ 0 :=
  c6_dp_max_sub_min [Lbl.int 1] (some [Lbl.int 1]) [some 0] none none
    (Lbl.int 1) none false ex1Report ex1_ok 0 rfl

theorem filter_isSome_zip3_length {β : Type} (yt yp : List Lbl)
    (s : List (Option β)) (h1 : yt.length = yp.length)
    (h2 : yt.length = s.length) :
    ((zip3 yt yp s).filter (fun r => r.2.2.isSome)).length =
      s.length - s.countP (fun o => o.isNone) := by
  have hmap := map_third_zip3 yt yp s h1 h2
  have hcomm : (List.map (fun r => r.2.2) (zip3 yt yp s)).filter
      (fun o => o.isSome) =
      List.map (fun r => r.2.2)
        ((zip3 yt yp s).filter (fun r => r.2.2.isSome)) := by
    rw [List.filter_map]
    rfl
  have hfm : (s.filter (fun o => o.isSome)).length =
      ((zip3 yt yp s).filter (fun r => r.2.2.isSome)).length := by
    conv_lhs => rw [← hmap]
    rw [hcomm, List.length_map]
  have hcount := countP_isSome_add_isNone s
  rw [← hfm, ← List.countP_eq_length_filter]
  omega

/-- Claim C7: the `n_samples` metadata of every returned report equals the
input length minus the number of rows dropped for a missing group value
(none when `dropna_groups` is false). -/
theorem c7_n_samples {β : Type} [LinearOrder β] (y_true : List Lbl)
    (y_pred : Option (List Lbl)) (sensitive : List (Option β))
    (y_score : Option (List ℚ)) (threshold : Option ℚ) (positive_label : Lbl)
    (group_order : Option (List β)) (dropna_groups : Bool) (r : BiasReport β)
    (h : from_arrays y_true y_pred sensitive y_score threshold positive_label
      group_order dropna_groups = Except.ok r) :
    r.metadata.n_samples =
      y_true.length -
        (if dropna_groups then sensitive.countP (fun o => o.isNone) else 0) := by
  obtain ⟨pred, cats, _, h1, h2, _, _, _, hmeta⟩ := from_arrays_ok h
  rw [hmeta]
  show (rowsOf y_true pred sensitive dropna_groups).length = _
  unfold rowsOf filteredRows
  have hz : (zip3 y_true pred sensitive).length = y_true.length := by
    simp only [zip3, List.length_zip]
    omega
  cases dropna_groups with
  | false => simpa using hz
  | true =>
    rw [show (if (true : Bool) then
        (zip3 y_true pred sensitive).filter (fun r => r.2.2.isSome)
      else zip3 y_true pred sensitive) =
        (zip3 y_true pred sensitive).filter (fun r => r.2.2.isSome) from rfl]
    rw [filter_isSome_zip3_length y_true pred sensitive h1 h2]
    simp only [if_true]
    omega

/-- Witness for C7 at a two-row input with one missing group value and
`dropna_groups` set: one row is dropped. -/
theorem c7_n_samples_witness :
    ex3Report.metadata.n_samples =
      [Lbl.int 1, Lbl.int 0].length -
        (if true then ([some 0, none] : List (Option ℕ)).countP
          (fun o => o.isNone) else 0) :=
  c7_n_samples [Lbl.int 1, Lbl.int 0] (some [Lbl.int 1, Lbl.int 1])
    [some 0, none] none none (Lbl.int 1) none true ex3Report ex3_ok

/-- Claim C8: the number of `GroupMetrics` entries equals the number of
distinct group values with at least one row after filtering — where
filtering drops missing-group rows (under `dropna_groups`) and, when an
explicit `group_order` is given, rows whose group is not listed in it —
for every choice of `group_order`. -/
theorem c8_n_groups {β : Type} [LinearOrder β] (y_true : List Lbl)
    (y_pred : Option (List Lbl)) (sensitive : List (Option β))
    (y_score : Option (List ℚ)) (threshold : Option ℚ) (positive_label : Lbl)
    (group_order : Option (List β)) (dropna_groups : Bool) (r : BiasReport β)
    (h : from_arrays y_true y_pred sensitive y_score threshold positive_label
      group_order dropna_groups = Except.ok r)
    (pred : List Lbl) (hp : resolvePred y_pred y_score threshold = Except.ok pred)
    (cats : List β)
    (hc : catsOf group_order (rowsOf y_true pred sensitive dropna_groups) =
      Except.ok cats) :
    r.by_group.length =
      ((uniques ((rowsOf y_true pred sensitive dropna_groups).filterMap
        (fun row => row.2.2))).filter (fun b => decide (b ∈ cats))).length := by
  obtain ⟨pred', cats', hp', _, _, hc', hbg, _, _⟩ := from_arrays_ok h
  have hpe : pred = pred' := Except.ok.inj (hp.symm.trans hp')
  subst hpe
  have hce : cats = cats' := Except.ok.inj (hc.symm.trans hc')
  subst hce
  rw [hbg]
  have hL : (byGroupOf (rowsOf y_true pred sensitive dropna_groups)
      positive_label cats).length =
      (cats.filter (fun c => decide (groupRows
        (rowsOf y_true pred sensitive dropna_groups) positive_label c ≠ []))).length := by
    unfold byGroupOf
    rw [length_filterMap_eq_countP, List.countP_eq_length_filter]
    refine congrArg List.length (List.filter_congr ?_)
    intro c _
    by_cases hn : (groupRows (rowsOf y_true pred sensitive dropna_groups)
        positive_label c).length = 0
    · simp [hn, List.length_eq_zero.mp hn]
    · have : groupRows (rowsOf y_true pred sensitive dropna_groups)
          positive_label c ≠ [] := by
        intro he
        exact hn (by simp [he])
      simp [hn, this]
  rw [hL]
  have hnd1 : (cats.filter (fun c => decide (groupRows
      (rowsOf y_true pred sensitive dropna_groups) positive_label c ≠ []))).Nodup :=
    (catsOf_nodup hc).filter _
  have hnd2 : ((uniques ((rowsOf y_true pred sensitive dropna_groups).filterMap
      (fun row => row.2.2))).filter (fun b => decide (b ∈ cats))).Nodup :=
    (nodup_uniques _).filter _
  refine List.Perm.length_eq ((List.perm_ext_iff_of_nodup hnd1 hnd2).mpr ?_)
  intro x
  simp only [List.mem_filter, mem_uniques, decide_eq_true_eq,
    groupRows_ne_nil_iff]
  exact ⟨fun hx => ⟨hx.2, hx.1⟩, fun hx => ⟨hx.2, hx.1⟩⟩

/-- Witness for C8 at the `group_order=[0]` input: one entry, one distinct
group value within the explicit order. -/
theorem c8_n_groups_witness :
    ex4Report.by_group.length =
      ((uniques ((rowsOf [Lbl.int 1, Lbl.int 0] [Lbl.int 1, Lbl.int 1]
        ([some 0, some 1] : List (Option ℕ)) false).filterMap
        (fun row => row.2.2))).filter (fun b => decide (b ∈ [0]))).length :=
  c8_n_groups [Lbl.int 1, Lbl.int 0] (some [Lbl.int 1, Lbl.int 1])
    [some 0, some 1] none none (Lbl.int 1) (some [0]) false ex4Report ex4_ok
    [Lbl.int 1, Lbl.int 1] rfl [0] rfl

theorem metricsFor_tpr_add_fnr {β : Type} (c : β) (rs : List (Bool × Bool))
    (hpos : 0 < (rs.filter (fun x => x.1)).length) :
    ∃ p q, (metricsFor c rs).tpr = some p ∧ (metricsFor c rs).fnr = some q ∧
      p + q = 1 := by
  have hsum := tpOf_add_fnOf rs
  have hne : tpOf rs + fnOf rs ≠ 0 := by omega
  have hcast : ((tpOf rs : ℚ) + (fnOf rs : ℚ)) ≠ 0 := by exact_mod_cast hne
  have hcast' : ((fnOf rs : ℚ) + (tpOf rs : ℚ)) ≠ 0 := by
    rw [add_comm]
    exact hcast
  refine ⟨(tpOf rs : ℚ) / ((tpOf rs : ℚ) + fnOf rs),
    (fnOf rs : ℚ) / ((fnOf rs : ℚ) + tpOf rs), ?_, ?_, ?_⟩
  · simp [metricsFor, safe_div, hcast]
  · simp [metricsFor, safe_div, hcast']
  · rw [add_comm ((fnOf rs : ℚ)) ((tpOf rs : ℚ)), div_add_div_same,
      div_self hcast]

theorem metricsFor_fpr_add_tnr {β : Type} (c : β) (rs : List (Bool × Bool))
    (hneg : 0 < (rs.filter (fun x => !x.1)).length) :
    ∃ p q, (metricsFor c rs).fpr = some p ∧ (metricsFor c rs).tnr = some q ∧
      p + q = 1 := by
  have hsum := fpOf_add_tnOf rs
  have hne : fpOf rs + tnOf rs ≠ 0 := by omega
  have hcast : ((fpOf rs : ℚ) + (tnOf rs : ℚ)) ≠ 0 := by exact_mod_cast hne
  have hcast' : ((tnOf rs : ℚ) + (fpOf rs : ℚ)) ≠ 0 := by
    rw [add_comm]
    exact hcast
  refine ⟨(fpOf rs : ℚ) / ((fpOf rs : ℚ) + tnOf rs),
    (tnOf rs : ℚ) / ((tnOf rs : ℚ) + fpOf rs), ?_, ?_, ?_⟩
  · simp [metricsFor, safe_div, hcast]
  · simp [metricsFor, safe_div, hcast']
  · rw [add_comm ((tnOf rs : ℚ)) ((fpOf rs : ℚ)), div_add_div_same,
      div_self hcast]

/-- Claim C9: for every group entry of a returned report (each of which is
`metricsFor` of its group's normalized rows), if the group has at least
one positive-truth sample then `tpr + fnr = 1`, and if it has at least
one negative-truth sample then `fpr + tnr = 1`. -/
theorem c9_complement {β : Type} [LinearOrder β] (y_true : List Lbl)
    (y_pred : Option (List Lbl)) (sensitive : List (Option β))
    (y_score : Option (List ℚ)) (threshold : Option ℚ) (positive_label : Lbl)
    (group_order : Option (List β)) (dropna_groups : Bool) (r : BiasReport β)
    (h : from_arrays y_true y_pred sensitive y_score threshold positive_label
      group_order dropna_groups = Except.ok r)
    (pred : List Lbl) (hp : resolvePred y_pred y_score threshold = Except.ok pred)
    (c : β)
    (hmem : metricsFor c (groupRows (rowsOf y_true pred sensitive dropna_groups)
      positive_label c) ∈ r.by_group) :
    (0 < ((groupRows (rowsOf y_true pred sensitive dropna_groups)
        positive_label c).filter (fun x => x.1)).length →
      ∃ p q, (metricsFor c (groupRows (rowsOf y_true pred sensitive
        dropna_groups) positive_label c)).tpr = some p ∧
        (metricsFor c (groupRows (rowsOf y_true pred sensitive dropna_groups)
          positive_label c)).fnr = some q ∧ p + q = 1) ∧
    (0 < ((groupRows (rowsOf y_true pred sensitive dropna_groups)
        positive_label c).filter (fun x => !x.1)).length →
      ∃ p q, (metricsFor c (groupRows (rowsOf y_true pred sensitive
        dropna_groups) positive_label c)).fpr = some p ∧
        (metricsFor c (groupRows (rowsOf y_true pred sensitive dropna_groups)
          positive_label c)).tnr = some q ∧ p + q = 1) :=
  ⟨fun hpos => metricsFor_tpr_add_fnr c _ hpos,
   fun hneg => metricsFor_fpr_add_tnr c _ hneg⟩

/-- Witness for C9 at the one-row input, group `0`, which has a positive
truth sample. -/
theorem c9_complement_witness :
    ∃ p q, (metricsFor 0 (groupRows (rowsOf [Lbl.int 1] [Lbl.int 1]
      ([some 0] : List (Option ℕ)) false) (Lbl.int 1) 0)).tpr = some p ∧
      (metricsFor 0 (groupRows (rowsOf [Lbl.int 1] [Lbl.int 1]
        ([some 0] : List (Option ℕ)) false) (Lbl.int 1) 0)).fnr = some q ∧
      p + q = 1 :=
  (c9_complement [Lbl.int 1] (some [Lbl.int 1]) [some 0] none none (Lbl.int 1)
    none false ex1Report ex1_ok [Lbl.int 1] rfl 0
    (by rw [show groupRows (rowsOf [Lbl.int 1] [Lbl.int 1]
        ([some 0] : List (Option ℕ)) false) (Lbl.int 1) 0 = [(true, true)]
        from rfl, mf1]
        simp [ex1Report])).1 (by decide)

/-- Claim C10: with an explicit `group_order`, every output entry's group
is listed in `group_order` and its count tallies exactly the rows of that
group, so rows whose group value is not in `group_order` contribute to no
entry, yet `n_samples` still counts every (non-dropped) row. -/
theorem c10_group_order_excludes {β : Type} [LinearOrder β] (y_true : List Lbl)
    (y_pred : Option (List Lbl)) (sensitive : List (Option β))
    (y_score : Option (List ℚ)) (threshold : Option ℚ) (positive_label : Lbl)
    (go : List β) (dropna_groups : Bool) (r : BiasReport β)
    (h : from_arrays y_true y_pred sensitive y_score threshold positive_label
      (some go) dropna_groups = Except.ok r)
    (pred : List Lbl)
    (hp : resolvePred y_pred y_score threshold = Except.ok pred) :
    (∀ gm ∈ r.by_group, gm.group ∈ go ∧
      gm.count = ((rowsOf y_true pred sensitive dropna_groups).filter
        (fun row => decide (row.2.2 = some gm.group))).length) ∧
    (∀ row ∈ rowsOf y_true pred sensitive dropna_groups, ∀ b,
      row.2.2 = some b → b ∉ go → ∀ gm ∈ r.by_group, gm.group ≠ b) ∧
    r.metadata.n_samples = (rowsOf y_true pred sensitive dropna_groups).length := by
  obtain ⟨pred', cats', hp', _, _, hc', hbg, _, hmeta⟩ := from_arrays_ok h
  have hpe : pred = pred' := Except.ok.inj (hp.symm.trans hp')
  subst hpe
  have hcats : cats' = go := by
    simp only [catsOf] at hc'
    by_cases hn : go.Nodup
    · rw [if_pos hn] at hc'
      exact (Except.ok.inj hc').symm
    · rw [if_neg hn] at hc'
      exact absurd hc' (by simp)
  rw [hcats] at hbg
  have hfirst : ∀ gm ∈ r.by_group, gm.group ∈ go ∧
      gm.count = ((rowsOf y_true pred sensitive dropna_groups).filter
        (fun row => decide (row.2.2 = some gm.group))).length := by
    intro gm hgm
    rw [hbg] at hgm
    obtain ⟨c, hcgo, _, hgme⟩ := mem_byGroupOf.mp hgm
    rw [hgme]
    refine ⟨by simpa [metricsFor] using hcgo, ?_⟩
    simp [metricsFor, groupRows]
  refine ⟨hfirst, ?_, ?_⟩
  · intro row _ b _ hnb gm hgm heq
    have hgo := (hfirst gm hgm).1
    rw [heq] at hgo
    exact hnb hgo
  · rw [hmeta]

/-- Witness for C10 at the two-group input with `group_order=[0]`: the
lone entry is group `0` with count 1, and `n_samples` is 2 (the group-`1`
row is counted there but belongs to no entry). -/
theorem c10_group_order_excludes_witness :
    (ex1Gm.group ∈ [0] ∧
      ex1Gm.count = ((rowsOf [Lbl.int 1, Lbl.int 0] [Lbl.int 1, Lbl.int 1]
        ([some 0, some 1] : List (Option ℕ)) false).filter
        (fun row => decide (row.2.2 = some ex1Gm.group))).length) ∧
    ex4Report.metadata.n_samples =
      (rowsOf [Lbl.int 1, Lbl.int 0] [Lbl.int 1, Lbl.int 1]
        ([some 0, some 1] : List (Option ℕ)) false).length :=
  ⟨(c10_group_order_excludes [Lbl.int 1, Lbl.int 0] (some [Lbl.int 1, Lbl.int 1])
      [some 0, some 1] none none (Lbl.int 1) [0] false ex4Report ex4_ok
      [Lbl.int 1, Lbl.int 1] rfl).1 ex1Gm (by simp [ex4Report]),
   (c10_group_order_excludes [Lbl.int 1, Lbl.int 0] (some [Lbl.int 1, Lbl.int 1])
      [some 0, some 1] none none (Lbl.int 1) [0] false ex4Report ex4_ok
      [Lbl.int 1, Lbl.int 1] rfl).2.2⟩
